import Mathlib

/-!
Verification of `packages/api-gw/src/apis/index.ts` from the `tencent-sdk`
repository: an action dispatcher over a generic cloud RPC client, and a
Joi-schema configuration validator.

JavaScript runtime values are embedded as the inductive `JVal`; objects are
association lists of fields in insertion order (JavaScript objects have unique
keys; assignment of an existing key keeps its position, assignment of a fresh
key appends).  Numbers are modelled as integers: every numeric field of the
schema is constrained by `Joi.number().integer()` or is compared against
integer bounds, and no claim depends on non-integral inputs.  Joi's
`convert`-from-string coercions (for example parsing a JSON string as an
array) are not modelled; all claims are stated over well-typed inputs.
-/

/-- JSON-like runtime values of the JavaScript embedding. -/
inductive JVal where
  | str (s : String)
  | num (n : Int)
  | bool (b : Bool)
  | arr (elems : List JVal)
  | obj (fields : List (String × JVal))

/-- Property read `o[k]` on a JavaScript object: value of the first matching
field (keys of a JavaScript object are unique). -/
def lookupField : List (String × JVal) → String → Option JVal
  | [], _ => none
  | (k', v) :: rest, k => if k' = k then some v else lookupField rest k

/-- Property write `o[k] = v`: replace the value of an existing key in place,
otherwise append the new field at the end. -/
def jsSet (fields : List (String × JVal)) (k : String) (v : JVal) :
    List (String × JVal) :=
  if fields.any (fun p => p.1 = k) then
    fields.map (fun p => if p.1 = k then (k, v) else p)
  else fields ++ [(k, v)]

/-- JavaScript object spread: start from `base` and assign every field of
`updates` in order (later assignments win). -/
def spreadMerge (base updates : List (String × JVal)) : List (String × JVal) :=
  updates.foldl (fun acc kv => jsSet acc kv.1 kv.2) base

/-- Case-sensitive substring test; models `String.prototype.match` applied to
the literal patterns `"does not exist"` / `"not found"`, which contain no
regular-expression metacharacters. -/
def strContains (s pat : String) : Bool :=
  s.data.tails.any (fun t => pat.data.isPrefixOf t)

/-! ## The action dispatcher (`ApiGwRequest`) -/

/-- `class HttpError extends Error` with numeric `code` and `message`. -/
structure HttpError where
  code : Int
  message : String
deriving DecidableEq

/-- A remote response: at least `code` and `message`, plus arbitrary further
fields (`extra`), which the dispatcher never touches. -/
structure ApiResponse where
  code : Int
  message : String
  extra : List (String × JVal) := []

/-- `CheckExistsFromError`: returns `false` (meaning: the resource is already
absent) when the message matches `does not exist` or `not found`.  The
source's `err && ...` truthiness guard is vacuous here: the dispatcher always
passes the (non-null) response object. -/
def CheckExistsFromError (err : ApiResponse) : Bool :=
  if strContains err.message "does not exist" then false
  else if strContains err.message "not found" then false
  else true

/-- `ApiGwRequest.actionList`: the fixed allow-list of dispatchable actions. -/
def actionList : List String := [
  "CreateService",
  "DeleteService",
  "DescribeService",
  "ReleaseService",
  "UnReleaseService",
  "CreateApi",
  "DescribeApi",
  "DeleteApi",
  "ModifyApi",
  "DescribeApisStatus",
  "CreateUsagePlan",
  "DescribeApiUsagePlan",
  "DescribeUsagePlanSecretIds",
  "DescribeUsagePlan",
  "DeleteUsagePlan",
  "ModifyUsagePlan",
  "CreateApiKey",
  "DeleteApiKey",
  "DisableApiKey",
  "EnableApiKey",
  "DescribeApiKeysStatus",
  "BindSecretIds",
  "UnBindSecretIds",
  "BindEnvironment",
  "UnBindEnvironment"]

/-- `ApiGwRequest.needCheckAction`: actions whose not-found failures are
swallowed. -/
def needCheckAction : List String := [
  "UnBindSecretIds",
  "UnBindEnvironment",
  "DeleteUsagePlan",
  "DeleteApiKey"]

/-- `this.needCheckAction.indexOf(item) !== -1`. -/
def needCheckOf (item : String) : Bool :=
  needCheckAction.contains item

/-- The request payload built at the call site of `this.apiRequest.request`:
the spread of the literal field `Action` followed by the caller's `data`
(later fields of the spread overwrite earlier ones). -/
def buildPayload (Action : String) (data : List (String × JVal)) :
    List (String × JVal) :=
  spreadMerge [("Action", JVal.str Action)] data

/-- The options built at the same call site: the spread of `options || \x7b\x7d`
followed by the fixed field `path = "/v2/index.php"`. -/
def buildOptions (options : Option (List (String × JVal))) :
    List (String × JVal) :=
  spreadMerge (options.getD []) [("path", JVal.str "/v2/index.php")]

/-- What `ApiGwRequest.request` passes to the RPC client's `request`. -/
structure CapiCall where
  payload : List (String × JVal)
  options : List (String × JVal)
  isV3 : Bool

/-- The single call `ApiGwRequest.request` makes to the RPC client. -/
def buildCall (Action : String) (data : List (String × JVal))
    (options : Option (List (String × JVal))) (isV3 : Bool) : CapiCall :=
  ⟨buildPayload Action data, buildOptions options, isV3⟩

/-- The post-response half of `ApiGwRequest.request`: raise `HttpError` on a
non-zero code, except that a `needCheck` action whose failure message denotes
an already-absent resource resolves with the raw response. -/
def handleResponse (needCheck : Bool) (res : ApiResponse) :
    Except HttpError ApiResponse :=
  if res.code ≠ 0 then
    if needCheck then
      if CheckExistsFromError res then .error ⟨res.code, res.message⟩
      else .ok res
    else .error ⟨res.code, res.message⟩
  else .ok res

/-- Outcome of a dispatched action on a given remote response: the factory
passes `needCheckAction.indexOf(item) !== -1` as the `needCheck` flag. -/
def dispatchResponse (action : String) (res : ApiResponse) :
    Except HttpError ApiResponse :=
  handleResponse (needCheckOf action) res

/-- `ApiGwRequest.apiFactory`: one entry per allow-listed action name, mapping
the name to the pair of arguments the generated closure hands to the shared
`request` routine (its own action name, and the existence-check flag). -/
def apiFactory : List (String × (String × Bool)) :=
  actionList.map (fun item => (item, (item, needCheckOf item)))

/-! ## The configuration validator (`Validate`)

The validator is `Joi.validate(config, globalScheme)` where `globalScheme`
carries `.options(allowUnknown true)`.  Joi semantics embedded here
(matching the Joi 13/14/15 line, where `Joi.validate` exists):

* an object schema validates its declared keys in definition order with
  `abortEarly` (first failure raises);
* `any.options` overrides the validation options for the current key *and
  every sub-key*, so `allowUnknown` cascades into the `endpoints` item
  objects: unknown keys are ignored (and kept) at every level of this schema;
* defaults are applied to absent optional keys without running the key's own
  validation rules; an absent optional object applies no defaults to its
  children;
* `.error(new Error(msg))` replaces any failure of that key with the given
  `Error` instance, which Joi surfaces verbatim as the overall validation
  error (not wrapped in `child ... fails because`);
* `Joi.string()` rejects the empty string (no `.allow('')` anywhere here);
* generic failures are wrapped per level in Joi's message formats. -/

/-- A Joi validation failure; `custom` marks an `Error` instance installed by
`.error(new Error(...))`, which propagates verbatim to the caller. -/
structure JoiError where
  custom : Bool
  message : String
deriving DecidableEq

/-- A generic (non-custom) Joi failure. -/
def genErr (m : String) : JoiError := ⟨false, m⟩

/-- Joi quotes labels in its messages. -/
def quoteKey (label : String) : String := "\"" ++ label ++ "\""

/-- Joi wraps a failing object child as `child "k" fails because [...]`;
a custom `Error` passes through unchanged. -/
def childWrap (key : String) (e : JoiError) : JoiError :=
  if e.custom then e
  else genErr ("child " ++ quoteKey key ++ " fails because [" ++
    e.message ++ "]")

/-- Joi wraps a failing array item as `"label" at position i fails because
[...]`; a custom `Error` passes through unchanged. -/
def itemWrap (label : String) (i : Nat) (e : JoiError) : JoiError :=
  if e.custom then e
  else genErr (quoteKey label ++ " at position " ++ toString i ++
    " fails because [" ++ e.message ++ "]")

def optMinFail (m : Option Nat) (n : Nat) : Bool :=
  match m with
  | none => false
  | some lo => n < lo

def optMaxFail (m : Option Nat) (n : Nat) : Bool :=
  match m with
  | none => false
  | some hi => hi < n

def intMinFail (m : Option Int) (n : Int) : Bool :=
  match m with
  | none => false
  | some lo => n < lo

def intMaxFail (m : Option Int) (n : Int) : Bool :=
  match m with
  | none => false
  | some hi => hi < n

/-- An anchored alternation regex `(lit1|lit2|...)` is membership in the
literal set. -/
def patFail (pat : Option (List String)) (s : String) : Bool :=
  match pat with
  | none => false
  | some lits => !(lits.contains s)

/-- `Joi.string()` with optional `min`, `max` and an anchored alternation
`regex`.  Joi rejects the empty string by default, before the rule tests. -/
def strCheck (minLen maxLen : Option Nat) (pat : Option (List String))
    (label : String) (v : JVal) : Except JoiError JVal :=
  match v with
  | JVal.str s =>
    if s = "" then
      .error (genErr (quoteKey label ++ " is not allowed to be empty"))
    else if optMinFail minLen s.length then
      .error (genErr (quoteKey label ++ " length must be at least " ++
        toString (minLen.getD 0) ++ " characters long"))
    else if optMaxFail maxLen s.length then
      .error (genErr (quoteKey label ++
        " length must be less than or equal to " ++
        toString (maxLen.getD 0) ++ " characters long"))
    else if patFail pat s then
      .error (genErr (quoteKey label ++ " with value " ++ quoteKey s ++
        " fails to match the required pattern"))
    else .ok (JVal.str s)
  | _ => .error (genErr (quoteKey label ++ " must be a string"))

/-- `Joi.number().integer()` with optional bounds; numbers are embedded as
integers, so the `integer` rule always holds. -/
def numCheck (minV maxV : Option Int) (label : String) (v : JVal) :
    Except JoiError JVal :=
  match v with
  | JVal.num n =>
    if intMinFail minV n then
      .error (genErr (quoteKey label ++ " must be larger than or equal to " ++
        toString (minV.getD 0)))
    else if intMaxFail maxV n then
      .error (genErr (quoteKey label ++ " must be less than or equal to " ++
        toString (maxV.getD 0)))
    else .ok (JVal.num n)
  | _ => .error (genErr (quoteKey label ++ " must be a number"))

/-- `Joi.boolean()`. -/
def boolCheck (label : String) (v : JVal) : Except JoiError JVal :=
  match v with
  | JVal.bool b => .ok (JVal.bool b)
  | _ => .error (genErr (quoteKey label ++ " must be a boolean"))

/-- One declared key of an object schema: name, presence flag, default,
optional `.error(new Error(msg))` override, and the value validator. -/
structure KeySpec where
  name : String
  required : Bool
  dflt : Option JVal
  customErr : Option String
  check : String → JVal → Except JoiError JVal

/-- `.error(new Error(msg))` replaces whatever failure the key produced. -/
def applyCustom (ce : Option String) (e : JoiError) : JoiError :=
  match ce with
  | some m => ⟨true, m⟩
  | none => e

/-- Validate one declared key against the fields of the enclosing object:
`ok none` leaves the key absent, `ok (some v)` stores `v` (the validated
value, or the default of an absent optional key). -/
def checkKey (spec : KeySpec) (fields : List (String × JVal)) :
    Except JoiError (Option JVal) :=
  match lookupField fields spec.name with
  | none =>
    if spec.required then
      .error (applyCustom spec.customErr
        (childWrap spec.name (genErr (quoteKey spec.name ++ " is required"))))
    else
      match spec.dflt with
      | some d => .ok (some d)
      | none => .ok none
  | some v =>
    match spec.check spec.name v with
    | .ok v' => .ok (some v')
    | .error e => .error (applyCustom spec.customErr (childWrap spec.name e))

/-- Validate the declared keys in definition order (`abortEarly`), threading
the output object; unknown keys of `acc` are left in place (`allowUnknown`
cascades from the top-level `.options`). -/
def validateKeysAux (specs : List KeySpec) (fields : List (String × JVal))
    (acc : List (String × JVal)) : Except JoiError (List (String × JVal)) :=
  match specs with
  | [] => .ok acc
  | spec :: rest =>
    match checkKey spec fields with
    | .error e => .error e
    | .ok none => validateKeysAux rest fields acc
    | .ok (some v) => validateKeysAux rest fields (jsSet acc spec.name v)

/-- Validate an object's fields: start from a copy of the input. -/
def validateKeys (specs : List KeySpec) (fields : List (String × JVal)) :
    Except JoiError (List (String × JVal)) :=
  validateKeysAux specs fields fields

/-- `Joi.object().keys(...)` applied to a value. -/
def objCheck (keys : List KeySpec) (label : String) (v : JVal) :
    Except JoiError JVal :=
  match v with
  | JVal.obj fields => (validateKeys keys fields).map JVal.obj
  | _ => .error (genErr (quoteKey label ++ " must be an object"))

/-- Validate array items in order (`abortEarly`), wrapping a failure with its
position. -/
def validateItems (label : String)
    (itemCheck : Nat → JVal → Except JoiError JVal) :
    Nat → List JVal → Except JoiError (List JVal)
  | _, [] => .ok []
  | i, x :: xs =>
    match itemCheck i x with
    | .error e => .error (itemWrap label i e)
    | .ok x' =>
      match validateItems label itemCheck (i + 1) xs with
      | .error e => .error e
      | .ok xs' => .ok (x' :: xs')

/-- `Joi.array()` with optional `max` and optional `items` schema; the items
are validated in the array base, before the `max` rule test. -/
def arrCheck (maxItems : Option Nat)
    (itemCheck : Option (Nat → JVal → Except JoiError JVal))
    (label : String) (v : JVal) : Except JoiError JVal :=
  match v with
  | JVal.arr xs =>
    match (match itemCheck with
           | none => Except.ok xs
           | some ic => validateItems label ic 0 xs) with
    | .error e => .error e
    | .ok xs' =>
      if optMaxFail maxItems xs.length then
        .error (genErr (quoteKey label ++
          " must contain less than or equal to " ++
          toString (maxItems.getD 0) ++ " items"))
      else .ok (JVal.arr xs')
  | _ => .error (genErr (quoteKey label ++ " must be an array"))

/-! ### Transcription of `usagePlanScheme`, `endpointsScheme`, `globalScheme` -/

def usagePlanIdSpec : KeySpec :=
  ⟨"usagePlanId", false, none, none, strCheck none none none⟩

def usagePlanDescSpec : KeySpec :=
  ⟨"usagePlanDesc", false, none, none, strCheck none (some 200) none⟩

def maxRequestNumSpec : KeySpec :=
  ⟨"maxRequestNum", false, some (JVal.num (-1)), none,
    numCheck (some 1) (some 99999999)⟩

def maxRequestNumPreSecSpec : KeySpec :=
  ⟨"maxRequestNumPreSec", false, some (JVal.num 1000), none,
    numCheck (some 1) (some 2000)⟩

def usagePlanNameSpec : KeySpec :=
  ⟨"usagePlanName", true, none,
    some "\"usagePlan.usagePlanName\" is required",
    strCheck (some 2) (some 50) none⟩

def usagePlanKeys : List KeySpec :=
  [usagePlanIdSpec, usagePlanDescSpec, maxRequestNumSpec,
    maxRequestNumPreSecSpec, usagePlanNameSpec]

def isIntegratedResponseSpec : KeySpec :=
  ⟨"isIntegratedResponse", false, some (JVal.bool false), none, boolCheck⟩

def functionQualifierSpec : KeySpec :=
  ⟨"functionQualifier", false, some (JVal.str "$LATEST"), none,
    strCheck none none none⟩

def functionNameSpec : KeySpec :=
  ⟨"functionName", true, none,
    some "\"endpoints.function.functionName\" is required",
    strCheck none none none⟩

def functionKeys : List KeySpec :=
  [isIntegratedResponseSpec, functionQualifierSpec, functionNameSpec]

def serviceTimeoutSpec : KeySpec :=
  ⟨"serviceTimeout", false, some (JVal.num 15), none, numCheck none none⟩

def secretNameSpec : KeySpec :=
  ⟨"secretName", true, none, none, strCheck none none none⟩

def secretIdsSpec : KeySpec :=
  ⟨"secretIds", false, none, none, arrCheck (some 100) none⟩

def authKeys : List KeySpec :=
  [serviceTimeoutSpec, secretNameSpec, secretIdsSpec]

def apiIdSpec : KeySpec :=
  ⟨"apiId", false, none, none, strCheck none none none⟩

def epDescriptionSpec : KeySpec :=
  ⟨"description", false, none, none, strCheck none (some 200) none⟩

def enableCORSSpec : KeySpec :=
  ⟨"enableCORS", false, some (JVal.bool false), none, boolCheck⟩

def pathSpec : KeySpec :=
  ⟨"path", true, none, none, strCheck none none none⟩

def methodSpec : KeySpec :=
  ⟨"method", true, none, none,
    strCheck none none (some ["GET", "POST", "PUT", "DELETE", "HEAD", "ANY"])⟩

def functionSpec : KeySpec :=
  ⟨"function", true, none, none, objCheck functionKeys⟩

def usagePlanSpec : KeySpec :=
  ⟨"usagePlan", false, none, none, objCheck usagePlanKeys⟩

def authSpec : KeySpec :=
  ⟨"auth", false, none, none, objCheck authKeys⟩

def endpointKeys : List KeySpec :=
  [apiIdSpec, epDescriptionSpec, enableCORSSpec, pathSpec, methodSpec,
    functionSpec, usagePlanSpec, authSpec]

/-- The item schema of `endpointsScheme`; Joi labels an array item by its
position. -/
def endpointItemCheck (i : Nat) (v : JVal) : Except JoiError JVal :=
  objCheck endpointKeys (toString i) v

def regionSpec : KeySpec :=
  ⟨"region", false, some (JVal.str "ap-guangzhou"), none,
    strCheck none none none⟩

def serviceIdSpec : KeySpec :=
  ⟨"serviceId", false, none, none, strCheck none none none⟩

def protocolSpec : KeySpec :=
  ⟨"protocol", false, some (JVal.str "http"), none,
    strCheck none none (some ["http", "https", "http&https"])⟩

def serviceNameSpec : KeySpec :=
  ⟨"serviceName", true, none, some "\"serviceName\" is required",
    strCheck (some 2) (some 50) none⟩

def gDescriptionSpec : KeySpec :=
  ⟨"description", false, none, none, strCheck none (some 200) none⟩

def environmentSpec : KeySpec :=
  ⟨"environment", false, some (JVal.str "release"), none,
    strCheck none none (some ["prepub", "test", "release"])⟩

def endpointsSpec : KeySpec :=
  ⟨"endpoints", true, none, none,
    arrCheck (some 100) (some endpointItemCheck)⟩

def globalKeys : List KeySpec :=
  [regionSpec, serviceIdSpec, protocolSpec, serviceNameSpec,
    gDescriptionSpec, environmentSpec, endpointsSpec]

/-- `Validate(config)`: validate the whole configuration object; returns the
defaulted copy or the first (`abortEarly`) failure. -/
def Validate (config : List (String × JVal)) :
    Except JoiError (List (String × JVal)) :=
  validateKeys globalKeys config

/-- Whether an `Except` computation succeeded. -/
def exceptOk {ε α : Type} : Except ε α → Bool
  | .ok _ => true
  | .error _ => false


/-! ## Association-list lemmas for the JavaScript object model -/

theorem lookupField_map_replace (f : List (String × JVal)) (k : String) (v : JVal)
    (h : f.any (fun p => p.1 = k) = true) :
    lookupField (f.map (fun p => if p.1 = k then (k, v) else p)) k = some v := by
  induction f with
  | nil => simp at h
  | cons p rest ih =>
    simp only [List.any_cons, Bool.or_eq_true, decide_eq_true_eq] at h
    by_cases hp : p.1 = k
    · rw [List.map_cons, if_pos hp]
      simp [lookupField]
    · rw [List.map_cons, if_neg hp]
      simp only [lookupField]
      rw [if_neg hp]
      exact ih (h.resolve_left hp)

theorem lookupField_append_self (f : List (String × JVal)) (k : String) (v : JVal)
    (h : f.any (fun p => p.1 = k) = false) :
    lookupField (f ++ [(k, v)]) k = some v := by
  induction f with
  | nil => simp [lookupField]
  | cons p rest ih =>
    simp only [List.any_cons, Bool.or_eq_false_iff, decide_eq_false_iff_not] at h
    simp only [List.cons_append, lookupField, if_neg h.1]
    exact ih (by simp [h.2])

theorem lookupField_jsSet_self (f : List (String × JVal)) (k : String) (v : JVal) :
    lookupField (jsSet f k v) k = some v := by
  unfold jsSet
  by_cases h : f.any (fun p => p.1 = k) = true
  · rw [if_pos h]; exact lookupField_map_replace f k v h
  · rw [if_neg h]
    exact lookupField_append_self f k v (Bool.eq_false_iff.mpr h)

theorem lookupField_map_replace_ne (f : List (String × JVal)) (k' k : String)
    (v : JVal) (h : k' ≠ k) :
    lookupField (f.map (fun p => if p.1 = k' then (k', v) else p)) k =
      lookupField f k := by
  induction f with
  | nil => rfl
  | cons p rest ih =>
    by_cases hp : p.1 = k'
    · have hpk : p.1 ≠ k := by rw [hp]; exact h
      rw [List.map_cons, if_pos hp]
      simp only [lookupField]
      rw [if_neg h, if_neg hpk]
      exact ih
    · rw [List.map_cons, if_neg hp]
      simp only [lookupField]
      by_cases hpk : p.1 = k
      · simp [hpk]
      · rw [if_neg hpk, if_neg hpk]
        exact ih

theorem lookupField_append_ne (f : List (String × JVal)) (k' k : String)
    (v : JVal) (h : k' ≠ k) :
    lookupField (f ++ [(k', v)]) k = lookupField f k := by
  induction f with
  | nil => simp [lookupField, if_neg h]
  | cons p rest ih =>
    simp only [List.cons_append, lookupField]
    by_cases hpk : p.1 = k
    · simp [hpk]
    · rw [if_neg hpk, if_neg hpk]
      exact ih

theorem lookupField_jsSet_ne (f : List (String × JVal)) (k' k : String)
    (v : JVal) (h : k' ≠ k) :
    lookupField (jsSet f k' v) k = lookupField f k := by
  unfold jsSet
  by_cases ha : f.any (fun p => p.1 = k') = true
  · rw [if_pos ha]; exact lookupField_map_replace_ne f k' k v h
  · rw [if_neg ha]; exact lookupField_append_ne f k' k v h

theorem lookupField_mem_keys (f : List (String × JVal)) (k : String) (v : JVal)
    (h : lookupField f k = some v) : k ∈ f.map Prod.fst := by
  induction f with
  | nil => simp [lookupField] at h
  | cons p rest ih =>
    simp only [lookupField] at h
    by_cases hp : p.1 = k
    · simp [hp]
    · rw [if_neg hp] at h
      simp [ih h]

/-- Final lookup after a JavaScript spread: a key named in `updates` gets the
value written there (unique, as `updates` models an object literal); any other
key falls through to `base`. -/
theorem lookup_spreadMerge (base updates : List (String × JVal)) (k : String)
    (hnd : (updates.map Prod.fst).Nodup) :
    lookupField (spreadMerge base updates) k =
      match lookupField updates k with
      | some v => some v
      | none => lookupField base k := by
  induction updates generalizing base with
  | nil => simp [spreadMerge, lookupField]
  | cons p rest ih =>
    simp only [List.map_cons, List.nodup_cons] at hnd
    have hstep : spreadMerge base (p :: rest) =
        spreadMerge (jsSet base p.1 p.2) rest := by
      simp [spreadMerge]
    rw [hstep, ih _ hnd.2]
    by_cases hpk : p.1 = k
    · have hrest : lookupField rest k = none := by
        cases hr : lookupField rest k with
        | none => rfl
        | some w =>
          exact absurd (hpk ▸ lookupField_mem_keys rest k w hr) hnd.1
      have hupd : lookupField (p :: rest) k = some p.2 := by
        cases p; simp only [lookupField]; rw [if_pos hpk]
      rw [hrest, hupd, hpk, lookupField_jsSet_self]
    · have hupd : lookupField (p :: rest) k = lookupField rest k := by
        cases p; simp only [lookupField]; rw [if_neg hpk]
      rw [hupd, lookupField_jsSet_ne base p.1 k p.2 hpk]

/-! ## Claims about the dispatcher -/

/-- C1: a dispatched action raises `HttpError(res.code, res.message)` exactly
when the response code is non-zero and either the action is outside the
existence-check set, or it is inside the set and the message contains neither
`"does not exist"` nor `"not found"`; any raised error carries exactly
`(res.code, res.message)`, and in every non-raising case the call resolves
with the raw response unchanged. -/
theorem c1_dispatch_outcome (action : String) (res : ApiResponse) :
    (dispatchResponse action res = .error ⟨res.code, res.message⟩ ↔
      (res.code ≠ 0 ∧
        (needCheckAction.contains action = false ∨
          (needCheckAction.contains action = true ∧
            strContains res.message "does not exist" = false ∧
            strContains res.message "not found" = false)))) ∧
    (∀ e : HttpError, dispatchResponse action res = .error e →
        e = ⟨res.code, res.message⟩) ∧
    (dispatchResponse action res ≠ .error ⟨res.code, res.message⟩ →
      dispatchResponse action res = .ok res) := by
  unfold dispatchResponse handleResponse needCheckOf CheckExistsFromError
  by_cases h0 : res.code = 0 <;>
    cases hc : needCheckAction.contains action <;>
      cases h1 : strContains res.message "does not exist" <;>
        cases h2 : strContains res.message "not found" <;>
          simp [h0, h1, h2]

/-- Witness for C1 at a concrete input: `CreateService` (outside the
existence-check set) with a non-zero code and a not-found style message still
raises. -/
theorem c1_dispatch_outcome_witness :
    dispatchResponse "CreateService" ⟨1, "does not exist", []⟩ =
      .error ⟨1, "does not exist"⟩ :=
  (c1_dispatch_outcome "CreateService" ⟨1, "does not exist", []⟩).1.mpr
    ⟨by decide, Or.inl (by decide)⟩

/-- C2 counterexample: the payload is `Action` first, then the spread of
`data`, so a caller-supplied `Action` field overwrites the dispatcher's
literal action name — the payload's `Action` is `"DeleteService"`, not the
dispatched `"CreateService"`. -/
theorem c2_payload_counterexample :
    buildPayload "CreateService" [("Action", JVal.str "DeleteService")] =
      [("Action", JVal.str "DeleteService")] ∧
    ("DeleteService" : String) ≠ "CreateService" :=
  ⟨rfl, by decide⟩

/-- C2 (amended): the payload is the merge of `data` with `Action = A`, but on
a key collision the caller's `data` wins: the payload's `Action` equals the
value from `data` when `data` defines one, and equals the dispatcher's literal
action name only otherwise; all other fields of `data` are forwarded
unchanged. -/
theorem c2_payload_merge (A : String) (data : List (String × JVal))
    (hnd : (data.map Prod.fst).Nodup) :
    (∀ v, lookupField data "Action" = some v →
        lookupField (buildPayload A data) "Action" = some v) ∧
    (lookupField data "Action" = none →
        lookupField (buildPayload A data) "Action" = some (JVal.str A)) ∧
    (∀ k, k ≠ "Action" →
        lookupField (buildPayload A data) k = lookupField data k) := by
  refine ⟨?_, ?_, ?_⟩
  · intro v hv
    rw [buildPayload, lookup_spreadMerge _ _ _ hnd, hv]
  · intro hv
    rw [buildPayload, lookup_spreadMerge _ _ _ hnd, hv]
    simp [lookupField]
  · intro k hk
    rw [buildPayload, lookup_spreadMerge _ _ _ hnd]
    cases hv : lookupField data k with
    | some v => rfl
    | none =>
      simp only [lookupField]
      rw [if_neg (fun h => hk h.symm)]

/-- Witness for C2 (amended) at a concrete input. -/
theorem c2_payload_merge_witness :
    lookupField (buildPayload "CreateService" [("serviceId", JVal.str "s1")])
      "Action" = some (JVal.str "CreateService") :=
  (c2_payload_merge "CreateService" [("serviceId", JVal.str "s1")]
    (by decide)).2.1 rfl

/-- C4: the options handed to the RPC client always carry
`path = "/v2/index.php"` — the fixed transport path overrides any
caller-supplied `path` — and every other caller option is forwarded
unchanged. -/
theorem c4_options_path (options : Option (List (String × JVal))) :
    lookupField (buildOptions options) "path" =
      some (JVal.str "/v2/index.php") ∧
    ∀ k, k ≠ "path" →
      lookupField (buildOptions options) k =
        lookupField (options.getD []) k := by
  constructor
  · rw [buildOptions, lookup_spreadMerge _ _ _ (by decide)]
    simp [lookupField]
  · intro k hk
    rw [buildOptions, lookup_spreadMerge _ _ _ (by decide)]
    have : lookupField [("path", JVal.str "/v2/index.php")] k = none := by
      simp only [lookupField]
      rw [if_neg (fun h => hk h.symm)]
    rw [this]

/-- Witness for C4 at a concrete input that itself sets `path`. -/
theorem c4_options_path_witness :
    lookupField (buildOptions (some [("path", JVal.str "/other"),
        ("host", JVal.str "h")])) "path" = some (JVal.str "/v2/index.php") ∧
    lookupField (buildOptions (some [("path", JVal.str "/other"),
        ("host", JVal.str "h")])) "host" = some (JVal.str "h") := by
  constructor
  · exact (c4_options_path (some [("path", JVal.str "/other"),
      ("host", JVal.str "h")])).1
  · rw [(c4_options_path (some [("path", JVal.str "/other"),
      ("host", JVal.str "h")])).2 "host" (by decide)]
    rfl

/-- C5: the action table exposes exactly the 25 allow-listed names, one entry
per name and no duplicates, and each entry invokes the shared request routine
with its own action name and with the existence-check flag set exactly on
`UnBindSecretIds`, `UnBindEnvironment`, `DeleteUsagePlan`, `DeleteApiKey`. -/
theorem c5_api_factory :
    apiFactory.map Prod.fst = actionList ∧
    actionList = ["CreateService", "DeleteService", "DescribeService",
      "ReleaseService", "UnReleaseService", "CreateApi", "DescribeApi",
      "DeleteApi", "ModifyApi", "DescribeApisStatus", "CreateUsagePlan",
      "DescribeApiUsagePlan", "DescribeUsagePlanSecretIds",
      "DescribeUsagePlan", "DeleteUsagePlan", "ModifyUsagePlan",
      "CreateApiKey", "DeleteApiKey", "DisableApiKey", "EnableApiKey",
      "DescribeApiKeysStatus", "BindSecretIds", "UnBindSecretIds",
      "BindEnvironment", "UnBindEnvironment"] ∧
    actionList.Nodup ∧
    needCheckAction = ["UnBindSecretIds", "UnBindEnvironment",
      "DeleteUsagePlan", "DeleteApiKey"] ∧
    ∀ p ∈ apiFactory,
      p.2.1 = p.1 ∧ (p.2.2 = true ↔ p.1 ∈ needCheckAction) := by
  refine ⟨by decide, by decide, by decide, by decide, ?_⟩
  decide

/-- Witness for C5 at a concrete entry. -/
theorem c5_api_factory_witness :
    ("DeleteUsagePlan", ("DeleteUsagePlan", true)).2.1 = "DeleteUsagePlan" ∧
    ((("DeleteUsagePlan", ("DeleteUsagePlan", true)).2.2 = true) ↔
      "DeleteUsagePlan" ∈ needCheckAction) :=
  c5_api_factory.2.2.2.2 ("DeleteUsagePlan", ("DeleteUsagePlan", true))
    (by decide)

/-! ## General lemmas about the validator -/

theorem validateKeysAux_error_append (spec : KeySpec) (rest : List KeySpec)
    (fields : List (String × JVal)) (e : JoiError)
    (herr : checkKey spec fields = .error e) :
    ∀ (pre : List KeySpec) (acc : List (String × JVal)),
      (∀ s ∈ pre, ∃ r, checkKey s fields = .ok r) →
      validateKeysAux (pre ++ spec :: rest) fields acc = .error e := by
  intro pre
  induction pre with
  | nil =>
    intro acc _
    simp only [List.nil_append, validateKeysAux, herr]
  | cons s pre ih =>
    intro acc hpre
    obtain ⟨r, hr⟩ := hpre s (List.mem_cons_self _ _)
    have hpre' : ∀ s ∈ pre, ∃ r, checkKey s fields = .ok r :=
      fun x hx => hpre x (List.mem_cons_of_mem _ hx)
    rw [List.cons_append]
    cases r with
    | none =>
      simp only [validateKeysAux, hr]
      exact ih _ hpre'
    | some v =>
      simp only [validateKeysAux, hr]
      exact ih _ hpre'

theorem validateKeysAux_ok_mem (specs : List KeySpec) (spec : KeySpec)
    (fields : List (String × JVal)) (hmem : spec ∈ specs) :
    ∀ (acc out : List (String × JVal)),
      validateKeysAux specs fields acc = .ok out →
      ∃ r, checkKey spec fields = .ok r := by
  induction specs with
  | nil => cases hmem
  | cons s rest ih =>
    intro acc out hok
    rcases List.mem_cons.mp hmem with heq | hmem'
    · subst heq
      cases hck : checkKey spec fields with
      | error e =>
        rw [validateKeysAux, hck] at hok
        cases hok
      | ok r => exact ⟨r, rfl⟩
    · cases hck : checkKey s fields with
      | error e =>
        rw [validateKeysAux, hck] at hok
        cases hok
      | ok r =>
        cases r with
        | none =>
          rw [validateKeysAux, hck] at hok
          exact ih hmem' _ _ hok
        | some v =>
          rw [validateKeysAux, hck] at hok
          exact ih hmem' _ _ hok

theorem validateKeysAux_lookup_unmanaged (specs : List KeySpec)
    (fields : List (String × JVal)) (k : String)
    (hk : ∀ s ∈ specs, s.name ≠ k) :
    ∀ (acc out : List (String × JVal)),
      validateKeysAux specs fields acc = .ok out →
      lookupField out k = lookupField acc k := by
  induction specs with
  | nil =>
    intro acc out hok
    cases hok
    rfl
  | cons s rest ih =>
    intro acc out hok
    have hk' : ∀ s ∈ rest, s.name ≠ k :=
      fun x hx => hk x (List.mem_cons_of_mem _ hx)
    cases hck : checkKey s fields with
    | error e =>
      rw [validateKeysAux, hck] at hok
      cases hok
    | ok r =>
      cases r with
      | none =>
        rw [validateKeysAux, hck] at hok
        exact ih hk' _ _ hok
      | some v =>
        rw [validateKeysAux, hck] at hok
        rw [ih hk' _ _ hok]
        exact lookupField_jsSet_ne acc s.name k v
          (hk s (List.mem_cons_self _ _))

theorem validateKeysAux_ok_lookup (specs : List KeySpec) (spec : KeySpec)
    (fields : List (String × JVal)) (v : JVal) (hmem : spec ∈ specs)
    (hck : checkKey spec fields = .ok (some v))
    (hnd : (specs.map KeySpec.name).Nodup) :
    ∀ (acc out : List (String × JVal)),
      validateKeysAux specs fields acc = .ok out →
      lookupField out spec.name = some v := by
  induction specs with
  | nil => cases hmem
  | cons s rest ih =>
    intro acc out hok
    simp only [List.map_cons, List.nodup_cons] at hnd
    rcases List.mem_cons.mp hmem with heq | hmem'
    · subst heq
      rw [validateKeysAux, hck] at hok
      have hrest : ∀ x ∈ rest, x.name ≠ spec.name := by
        intro x hx hcontra
        exact hnd.1 (hcontra ▸ List.mem_map_of_mem KeySpec.name hx)
      rw [validateKeysAux_lookup_unmanaged rest fields spec.name hrest _ _ hok]
      exact lookupField_jsSet_self acc spec.name v
    · cases hck' : checkKey s fields with
      | error e =>
        rw [validateKeysAux, hck'] at hok
        cases hok
      | ok r =>
        cases r with
        | none =>
          rw [validateKeysAux, hck'] at hok
          exact ih hmem' hnd.2 _ _ hok
        | some w =>
          rw [validateKeysAux, hck'] at hok
          exact ih hmem' hnd.2 _ _ hok

theorem validateItems_ok_mem (label : String)
    (ic : Nat → JVal → Except JoiError JVal) (x : JVal) :
    ∀ (xs : List JVal) (i : Nat) (ys : List JVal),
      validateItems label ic i xs = .ok ys → x ∈ xs →
      ∃ j y, ic j x = .ok y := by
  intro xs
  induction xs with
  | nil =>
    intro i ys _ hmem
    cases hmem
  | cons z zs ih =>
    intro i ys hok hmem
    cases hcz : ic i z with
    | error e =>
      rw [validateItems, hcz] at hok
      cases hok
    | ok z' =>
      rw [validateItems, hcz] at hok
      cases hrec : validateItems label ic (i + 1) zs with
      | error e =>
        rw [hrec] at hok
        cases hok
      | ok zs' =>
        rw [hrec] at hok
        rcases List.mem_cons.mp hmem with heq | hmem'
        · exact ⟨i, z', by rw [heq]; exact hcz⟩
        · exact ih (i + 1) zs' hrec hmem'

theorem validateItems_error_append (label : String)
    (ic : Nat → JVal → Except JoiError JVal) (x : JVal) (rest : List JVal)
    (e : JoiError) (hcust : e.custom = true) :
    ∀ (pre : List JVal) (i : Nat),
      (∀ (j : Nat) (h : j < pre.length),
        ∃ y, ic (i + j) (pre.get ⟨j, h⟩) = .ok y) →
      ic (i + pre.length) x = .error e →
      validateItems label ic i (pre ++ x :: rest) = .error e := by
  intro pre
  induction pre with
  | nil =>
    intro i _ herr
    rw [List.length_nil, Nat.add_zero] at herr
    rw [List.nil_append, validateItems, herr]
    simp [itemWrap, hcust]
  | cons p pre ih =>
    intro i hpre herr
    obtain ⟨y, hy⟩ := hpre 0 (by simp)
    have hy' : ic i p = .ok y := by
      rw [Nat.add_zero] at hy
      exact hy
    rw [List.cons_append, validateItems, hy']
    have hpre' : ∀ (j : Nat) (h : j < pre.length),
        ∃ y, ic (i + 1 + j) (pre.get ⟨j, h⟩) = .ok y := by
      intro j hj
      obtain ⟨w, hw⟩ := hpre (j + 1) (by simpa using Nat.succ_lt_succ hj)
      refine ⟨w, ?_⟩
      have hidx : i + (j + 1) = i + 1 + j := by omega
      rw [← hidx]
      simpa using hw
    have herr' : ic (i + 1 + pre.length) x = .error e := by
      have hidx : i + (p :: pre).length = i + 1 + pre.length := by
        simp
        omega
      rw [← hidx]
      exact herr
    rw [ih (i + 1) hpre' herr']

theorem arrCheck_ok_len (maxN : Nat)
    (ic : Option (Nat → JVal → Except JoiError JVal)) (label : String)
    (xs : List JVal) (out : JVal)
    (h : arrCheck (some maxN) ic label (JVal.arr xs) = .ok out) :
    xs.length ≤ maxN := by
  simp only [arrCheck] at h
  cases hitems : (match ic with
      | none => Except.ok xs
      | some icf => validateItems label icf 0 xs) with
  | error e =>
    simp only [hitems] at h
    cases h
  | ok xs' =>
    simp only [hitems] at h
    by_cases hmax : optMaxFail (some maxN) xs.length = true
    · rw [if_pos hmax] at h
      cases h
    · unfold optMaxFail at hmax
      simp only [decide_eq_true_eq] at hmax
      omega

theorem arrCheck_ok_items (maxItems : Option Nat)
    (icf : Nat → JVal → Except JoiError JVal) (label : String)
    (xs : List JVal) (out : JVal)
    (h : arrCheck maxItems (some icf) label (JVal.arr xs) = .ok out) :
    ∃ ys, validateItems label icf 0 xs = .ok ys ∧ out = JVal.arr ys := by
  simp only [arrCheck] at h
  cases hitems : validateItems label icf 0 xs with
  | error e =>
    simp only [hitems] at h
    cases h
  | ok ys =>
    simp only [hitems] at h
    by_cases hmax : optMaxFail maxItems xs.length = true
    · rw [if_pos hmax] at h
      cases h
    · rw [if_neg hmax] at h
      cases h
      exact ⟨ys, rfl, rfl⟩

theorem arrCheck_items_error (maxItems : Option Nat)
    (icf : Nat → JVal → Except JoiError JVal) (label : String)
    (xs : List JVal) (e : JoiError)
    (h : validateItems label icf 0 xs = .error e) :
    arrCheck maxItems (some icf) label (JVal.arr xs) = .error e := by
  simp only [arrCheck, h]

theorem objCheck_ok_inv (keys : List KeySpec) (label : String)
    (f : List (String × JVal)) (out : JVal)
    (h : objCheck keys label (JVal.obj f) = .ok out) :
    ∃ g, validateKeysAux keys f f = .ok g ∧ out = JVal.obj g := by
  simp only [objCheck, validateKeys] at h
  cases hv : validateKeysAux keys f f with
  | error e =>
    rw [hv] at h
    cases h
  | ok g =>
    rw [hv] at h
    cases h
    exact ⟨g, rfl, rfl⟩

theorem objCheck_error (keys : List KeySpec) (label : String)
    (f : List (String × JVal)) (e : JoiError)
    (h : validateKeysAux keys f f = .error e) :
    objCheck keys label (JVal.obj f) = .error e := by
  simp only [objCheck, validateKeys, h]
  rfl

theorem checkKey_required_missing (spec : KeySpec)
    (fields : List (String × JVal))
    (hl : lookupField fields spec.name = none) (hr : spec.required = true) :
    checkKey spec fields = .error (applyCustom spec.customErr
      (childWrap spec.name (genErr (quoteKey spec.name ++ " is required")))) := by
  unfold checkKey
  rw [hl, if_pos hr]

theorem checkKey_check_error (spec : KeySpec)
    (fields : List (String × JVal)) (v : JVal) (e : JoiError)
    (hl : lookupField fields spec.name = some v)
    (hc : spec.check spec.name v = .error e) :
    checkKey spec fields = .error (applyCustom spec.customErr
      (childWrap spec.name e)) := by
  simp only [checkKey, hl, hc]

theorem checkKey_ok_present (spec : KeySpec)
    (fields : List (String × JVal)) (v : JVal) (r : Option JVal)
    (hl : lookupField fields spec.name = some v)
    (hok : checkKey spec fields = .ok r) :
    ∃ v', spec.check spec.name v = .ok v' ∧ r = some v' := by
  simp only [checkKey, hl] at hok
  cases hc : spec.check spec.name v with
  | error e =>
    rw [hc] at hok
    cases hok
  | ok v' =>
    rw [hc] at hok
    cases hok
    exact ⟨v', rfl, rfl⟩

theorem checkKey_absent_default (spec : KeySpec)
    (fields : List (String × JVal)) (d : JVal)
    (hl : lookupField fields spec.name = none)
    (hr : spec.required = false) (hd : spec.dflt = some d) :
    checkKey spec fields = .ok (some d) := by
  unfold checkKey
  rw [hl, hr, hd]
  rfl

theorem exceptOk_eq_true {ε α : Type} (r : Except ε α) :
    exceptOk r = true ↔ ∃ a, r = .ok a := by
  cases r <;> simp [exceptOk]

theorem checkKey_congr (spec : KeySpec) (f1 f2 : List (String × JVal))
    (h : lookupField f1 spec.name = lookupField f2 spec.name) :
    checkKey spec f1 = checkKey spec f2 := by
  unfold checkKey
  rw [h]

theorem validateKeysAux_okness_congr (specs : List KeySpec)
    (f1 f2 : List (String × JVal))
    (h : ∀ s ∈ specs, lookupField f1 s.name = lookupField f2 s.name) :
    ∀ (acc1 acc2 : List (String × JVal)),
      exceptOk (validateKeysAux specs f1 acc1) =
        exceptOk (validateKeysAux specs f2 acc2) := by
  induction specs with
  | nil =>
    intro acc1 acc2
    rfl
  | cons s rest ih =>
    intro acc1 acc2
    have hs : checkKey s f1 = checkKey s f2 :=
      checkKey_congr s f1 f2 (h s (List.mem_cons_self _ _))
    have h' : ∀ x ∈ rest, lookupField f1 x.name = lookupField f2 x.name :=
      fun x hx => h x (List.mem_cons_of_mem _ hx)
    cases hck : checkKey s f2 with
    | error e =>
      rw [validateKeysAux, validateKeysAux, hs, hck]
    | ok r =>
      cases r with
      | none =>
        rw [validateKeysAux, validateKeysAux, hs, hck]
        exact ih h' _ _
      | some v =>
        rw [validateKeysAux, validateKeysAux, hs, hck]
        exact ih h' _ _

theorem validateItems_ok_pointwise (label : String)
    (ic : Nat → JVal → Except JoiError JVal) :
    ∀ (xs : List JVal) (i : Nat) (ys : List JVal),
      validateItems label ic i xs = .ok ys →
      ∀ (j : Nat) (h : j < xs.length),
        ∃ y, ic (i + j) (xs.get ⟨j, h⟩) = .ok y ∧ ys.get? j = some y := by
  intro xs
  induction xs with
  | nil =>
    intro i ys _ j h
    exact absurd h (Nat.not_lt_zero j)
  | cons z zs ih =>
    intro i ys hok j h
    cases hcz : ic i z with
    | error e =>
      rw [validateItems, hcz] at hok
      cases hok
    | ok z' =>
      rw [validateItems, hcz] at hok
      cases hrec : validateItems label ic (i + 1) zs with
      | error e =>
        rw [hrec] at hok
        cases hok
      | ok zs' =>
        rw [hrec] at hok
        cases hok
        cases j with
        | zero =>
          refine ⟨z', ?_, rfl⟩
          rw [Nat.add_zero]
          exact hcz
        | succ j' =>
          obtain ⟨y, hy, hget⟩ := ih (i + 1) zs' hrec j'
            (Nat.lt_of_succ_lt_succ (by simpa using h))
          refine ⟨y, ?_, by simpa using hget⟩
          have hidx : i + (j' + 1) = i + 1 + j' := by omega
          rw [hidx]
          simpa using hy

/-! ## Claims about the validator -/

/-- C7: a configuration whose `endpoints` array is longer than 100 never
validates, and neither does one containing an endpoint whose
`auth.secretIds` array is longer than 100. -/
theorem c7_length_limits :
    (∀ (c : List (String × JVal)) (xs : List JVal),
      lookupField c "endpoints" = some (JVal.arr xs) → 100 < xs.length →
      exceptOk (Validate c) = false) ∧
    (∀ (c : List (String × JVal)) (xs : List JVal)
      (epf af : List (String × JVal)) (ids : List JVal),
      lookupField c "endpoints" = some (JVal.arr xs) → JVal.obj epf ∈ xs →
      lookupField epf "auth" = some (JVal.obj af) →
      lookupField af "secretIds" = some (JVal.arr ids) → 100 < ids.length →
      exceptOk (Validate c) = false) := by
  constructor
  · intro c xs hl hlen
    cases hv : Validate c with
    | error e => rfl
    | ok out =>
      exfalso
      obtain ⟨r, hck⟩ := validateKeysAux_ok_mem globalKeys endpointsSpec c
        (by simp [globalKeys]) c out hv
      obtain ⟨v', hchk, _⟩ :=
        checkKey_ok_present endpointsSpec c (JVal.arr xs) r hl hck
      have := arrCheck_ok_len 100 (some endpointItemCheck) "endpoints" xs v' hchk
      omega
  · intro c xs epf af ids hl hmem hauth hsec hlen
    cases hv : Validate c with
    | error e => rfl
    | ok out =>
      exfalso
      obtain ⟨r, hck⟩ := validateKeysAux_ok_mem globalKeys endpointsSpec c
        (by simp [globalKeys]) c out hv
      obtain ⟨v', hchk, _⟩ :=
        checkKey_ok_present endpointsSpec c (JVal.arr xs) r hl hck
      obtain ⟨ys, hitems, _⟩ :=
        arrCheck_ok_items (some 100) endpointItemCheck "endpoints" xs v' hchk
      obtain ⟨j, y, hep⟩ :=
        validateItems_ok_mem "endpoints" endpointItemCheck (JVal.obj epf)
          xs 0 ys hitems hmem
      obtain ⟨g, hg, _⟩ := objCheck_ok_inv endpointKeys (toString j) epf y hep
      obtain ⟨r2, hck2⟩ := validateKeysAux_ok_mem endpointKeys authSpec epf
        (by simp [endpointKeys]) epf g hg
      obtain ⟨v2, hchk2, _⟩ :=
        checkKey_ok_present authSpec epf (JVal.obj af) r2 hauth hck2
      obtain ⟨g2, hg2, _⟩ := objCheck_ok_inv authKeys "auth" af v2 hchk2
      obtain ⟨r3, hck3⟩ := validateKeysAux_ok_mem authKeys secretIdsSpec af
        (by simp [authKeys]) af g2 hg2
      obtain ⟨v3, hchk3, _⟩ :=
        checkKey_ok_present secretIdsSpec af (JVal.arr ids) r3 hsec hck3
      have := arrCheck_ok_len 100 none "secretIds" ids v3 hchk3
      omega

/-- Witness for C7 at concrete over-long inputs. -/
theorem c7_length_limits_witness :
    exceptOk (Validate [("endpoints",
      JVal.arr (List.replicate 101 (JVal.obj [])))]) = false ∧
    exceptOk (Validate [("serviceName", JVal.str "sv"),
      ("endpoints", JVal.arr [JVal.obj
        [("path", JVal.str "/p"), ("method", JVal.str "GET"),
         ("function", JVal.obj [("functionName", JVal.str "fn")]),
         ("auth", JVal.obj [("secretName", JVal.str "sec"),
           ("secretIds", JVal.arr (List.replicate 101
             (JVal.str "id")))])]])]) = false := by
  constructor
  · exact c7_length_limits.1
      [("endpoints", JVal.arr (List.replicate 101 (JVal.obj [])))]
      (List.replicate 101 (JVal.obj [])) rfl (by simp)
  · exact c7_length_limits.2
      [("serviceName", JVal.str "sv"),
       ("endpoints", JVal.arr [JVal.obj
         [("path", JVal.str "/p"), ("method", JVal.str "GET"),
          ("function", JVal.obj [("functionName", JVal.str "fn")]),
          ("auth", JVal.obj [("secretName", JVal.str "sec"),
            ("secretIds", JVal.arr (List.replicate 101
              (JVal.str "id")))])]])]
      [JVal.obj [("path", JVal.str "/p"), ("method", JVal.str "GET"),
        ("function", JVal.obj [("functionName", JVal.str "fn")]),
        ("auth", JVal.obj [("secretName", JVal.str "sec"),
          ("secretIds", JVal.arr (List.replicate 101 (JVal.str "id")))])]]
      [("path", JVal.str "/p"), ("method", JVal.str "GET"),
       ("function", JVal.obj [("functionName", JVal.str "fn")]),
       ("auth", JVal.obj [("secretName", JVal.str "sec"),
         ("secretIds", JVal.arr (List.replicate 101 (JVal.str "id")))])]
      [("secretName", JVal.str "sec"),
       ("secretIds", JVal.arr (List.replicate 101 (JVal.str "id")))]
      (List.replicate 101 (JVal.str "id"))
      rfl (by simp) rfl rfl (by simp)

/-- C3 counterexample: an endpoint item carrying the unknown key `"foo"`
still validates — Joi's `.options(allowUnknown true)` on the top-level schema
cascades into sub-keys, so unknown keys nested inside `endpoints` items do
NOT raise a `ValidationError`; the unknown key is even preserved in the
validated output. -/
theorem c3_unknown_key_counterexample :
    exceptOk (Validate [("serviceName", JVal.str "sv"),
      ("endpoints", JVal.arr [JVal.obj
        [("path", JVal.str "/p"), ("method", JVal.str "GET"),
         ("function", JVal.obj [("functionName", JVal.str "fn")]),
         ("foo", JVal.num 7)]])]) = true ∧
    (match Validate [("serviceName", JVal.str "sv"),
      ("endpoints", JVal.arr [JVal.obj
        [("path", JVal.str "/p"), ("method", JVal.str "GET"),
         ("function", JVal.obj [("functionName", JVal.str "fn")]),
         ("foo", JVal.num 7)]])] with
     | .ok g =>
       match lookupField g "endpoints" with
       | some (JVal.arr [JVal.obj ep]) => lookupField ep "foo"
       | _ => none
     | .error _ => none) = some (JVal.num 7) :=
  ⟨rfl, rfl⟩

/-- C3 (amended): unknown keys are permitted and preserved both at the top
level and inside `endpoints` items — `allowUnknown` cascades from the
top-level `.options` into the item schemas, so an unknown nested key never
causes a `ValidationError`. -/
theorem c3_unknown_keys_allowed :
    (∀ (c : List (String × JVal)) (k : String) (v : JVal),
      (∀ s ∈ globalKeys, s.name ≠ k) →
      exceptOk (Validate (jsSet c k v)) = exceptOk (Validate c) ∧
      (∀ out, Validate (jsSet c k v) = .ok out →
        lookupField out k = some v)) ∧
    (∀ (f : List (String × JVal)) (k : String) (v : JVal) (lbl : String),
      (∀ s ∈ endpointKeys, s.name ≠ k) →
      exceptOk (objCheck endpointKeys lbl (JVal.obj (jsSet f k v))) =
        exceptOk (objCheck endpointKeys lbl (JVal.obj f)) ∧
      (∀ g, objCheck endpointKeys lbl (JVal.obj (jsSet f k v)) =
          .ok (JVal.obj g) → lookupField g k = some v)) := by
  constructor
  · intro c k v hk
    constructor
    · exact validateKeysAux_okness_congr globalKeys (jsSet c k v) c
        (fun s hs => lookupField_jsSet_ne c k s.name v
          (fun h => hk s hs h.symm)) _ _
    · intro out hout
      rw [validateKeysAux_lookup_unmanaged globalKeys (jsSet c k v) k hk
        _ _ hout]
      exact lookupField_jsSet_self c k v
  · intro f k v lbl hk
    constructor
    · simp only [objCheck, validateKeys]
      rw [show (validateKeysAux endpointKeys (jsSet f k v) (jsSet f k v)).map
            JVal.obj = _ from rfl]
      cases h1 : validateKeysAux endpointKeys (jsSet f k v) (jsSet f k v) with
      | error e =>
        cases h2 : validateKeysAux endpointKeys f f with
        | error e2 => rfl
        | ok g2 =>
          have := validateKeysAux_okness_congr endpointKeys (jsSet f k v) f
            (fun s hs => lookupField_jsSet_ne f k s.name v
              (fun h => hk s hs h.symm)) (jsSet f k v) f
          rw [h1, h2] at this
          cases this
      | ok g =>
        cases h2 : validateKeysAux endpointKeys f f with
        | error e2 =>
          have := validateKeysAux_okness_congr endpointKeys (jsSet f k v) f
            (fun s hs => lookupField_jsSet_ne f k s.name v
              (fun h => hk s hs h.symm)) (jsSet f k v) f
          rw [h1, h2] at this
          cases this
        | ok g2 => rfl
    · intro g hg
      obtain ⟨g', hg', heq⟩ :=
        objCheck_ok_inv endpointKeys lbl (jsSet f k v) (JVal.obj g) hg
      cases heq
      rw [validateKeysAux_lookup_unmanaged endpointKeys (jsSet f k v) k hk
        _ _ hg']
      exact lookupField_jsSet_self f k v

/-- Witness for C3 (amended) at a concrete input. -/
theorem c3_unknown_keys_allowed_witness :
    exceptOk (Validate (jsSet [("serviceName", JVal.str "sv"),
        ("endpoints", JVal.arr [])] "extraTop" (JVal.num 1))) =
      exceptOk (Validate [("serviceName", JVal.str "sv"),
        ("endpoints", JVal.arr [])]) ∧
    exceptOk (objCheck endpointKeys "0" (JVal.obj (jsSet
        [("path", JVal.str "/p"), ("method", JVal.str "GET"),
         ("function", JVal.obj [("functionName", JVal.str "fn")])]
        "nested" (JVal.bool true)))) =
      exceptOk (objCheck endpointKeys "0" (JVal.obj
        [("path", JVal.str "/p"), ("method", JVal.str "GET"),
         ("function", JVal.obj [("functionName", JVal.str "fn")])])) :=
  ⟨(c3_unknown_keys_allowed.1 [("serviceName", JVal.str "sv"),
      ("endpoints", JVal.arr [])] "extraTop" (JVal.num 1) (by decide)).1,
   (c3_unknown_keys_allowed.2 [("path", JVal.str "/p"),
      ("method", JVal.str "GET"),
      ("function", JVal.obj [("functionName", JVal.str "fn")])]
      "nested" (JVal.bool true) "0" (by decide)).1⟩

/-- C9: the default `-1` of `usagePlan.maxRequestNum` bypasses the field's own
`min 1` bound: an omitted `maxRequestNum` yields `-1` in the validated usage
plan, while an explicit `-1` fails validation; the same holds through the
whole pipeline on a concrete configuration. -/
theorem c9_maxRequestNum_default_bypass :
    (∀ (up : List (String × JVal)) (lbl : String) (g : List (String × JVal)),
      lookupField up "maxRequestNum" = none →
      objCheck usagePlanKeys lbl (JVal.obj up) = .ok (JVal.obj g) →
      lookupField g "maxRequestNum" = some (JVal.num (-1))) ∧
    (∀ (up : List (String × JVal)) (lbl : String),
      lookupField up "maxRequestNum" = some (JVal.num (-1)) →
      exceptOk (objCheck usagePlanKeys lbl (JVal.obj up)) = false) ∧
    (match Validate [("serviceName", JVal.str "myservice"),
        ("endpoints", JVal.arr [JVal.obj
          [("path", JVal.str "/hello"), ("method", JVal.str "GET"),
           ("function", JVal.obj [("functionName", JVal.str "fn")]),
           ("usagePlan", JVal.obj
             [("usagePlanName", JVal.str "plan")])]])] with
     | .ok g =>
       match lookupField g "endpoints" with
       | some (JVal.arr [JVal.obj ep]) =>
         match lookupField ep "usagePlan" with
         | some (JVal.obj up) => lookupField up "maxRequestNum"
         | _ => none
       | _ => none
     | .error _ => none) = some (JVal.num (-1)) ∧
    exceptOk (Validate [("serviceName", JVal.str "myservice"),
      ("endpoints", JVal.arr [JVal.obj
        [("path", JVal.str "/hello"), ("method", JVal.str "GET"),
         ("function", JVal.obj [("functionName", JVal.str "fn")]),
         ("usagePlan", JVal.obj
           [("usagePlanName", JVal.str "plan"),
            ("maxRequestNum", JVal.num (-1))])]])]) = false := by
  refine ⟨?_, ?_, rfl, rfl⟩
  · intro up lbl g hnone hok
    obtain ⟨g', hg', heq⟩ :=
      objCheck_ok_inv usagePlanKeys lbl up (JVal.obj g) hok
    injection heq with heq'
    subst heq'
    have hck : checkKey maxRequestNumSpec up = .ok (some (JVal.num (-1))) :=
      checkKey_absent_default maxRequestNumSpec up (JVal.num (-1))
        hnone rfl rfl
    exact validateKeysAux_ok_lookup usagePlanKeys maxRequestNumSpec up
      (JVal.num (-1)) (by simp [usagePlanKeys]) hck (by decide) up _ hg'
  · intro up lbl hneg
    cases hv : objCheck usagePlanKeys lbl (JVal.obj up) with
    | error e => rfl
    | ok out =>
      exfalso
      obtain ⟨g, hg, _⟩ := objCheck_ok_inv usagePlanKeys lbl up out hv
      obtain ⟨r, hck⟩ := validateKeysAux_ok_mem usagePlanKeys
        maxRequestNumSpec up (by simp [usagePlanKeys]) up g hg
      obtain ⟨v', hchk, _⟩ := checkKey_ok_present maxRequestNumSpec up
        (JVal.num (-1)) r hneg hck
      simp [maxRequestNumSpec, numCheck, intMinFail] at hchk

/-- Witness for C9 at concrete usage-plan objects. -/
theorem c9_maxRequestNum_default_bypass_witness :
    lookupField [("usagePlanName", JVal.str "plan"),
      ("maxRequestNum", JVal.num (-1)),
      ("maxRequestNumPreSec", JVal.num 1000)] "maxRequestNum" =
      some (JVal.num (-1)) ∧
    exceptOk (objCheck usagePlanKeys "usagePlan" (JVal.obj
      [("usagePlanName", JVal.str "plan"),
       ("maxRequestNum", JVal.num (-1))])) = false :=
  ⟨c9_maxRequestNum_default_bypass.1 [("usagePlanName", JVal.str "plan")]
      "usagePlan"
      [("usagePlanName", JVal.str "plan"), ("maxRequestNum", JVal.num (-1)),
       ("maxRequestNumPreSec", JVal.num 1000)] rfl rfl,
   c9_maxRequestNum_default_bypass.2.1 [("usagePlanName", JVal.str "plan"),
      ("maxRequestNum", JVal.num (-1))] "usagePlan" rfl⟩

theorem exceptOk_eq_false {ε α : Type} (r : Except ε α) :
    exceptOk r = false ↔ ∃ e, r = .error e := by
  cases r <;> simp [exceptOk]

theorem checkKey_custom_error (spec : KeySpec) (fields : List (String × JVal))
    (m : String) (hcust : spec.customErr = some m)
    (herr : (lookupField fields spec.name = none ∧ spec.required = true) ∨
      (∃ v e, lookupField fields spec.name = some v ∧
        spec.check spec.name v = .error e)) :
    checkKey spec fields = .error ⟨true, m⟩ := by
  rcases herr with ⟨hl, hr⟩ | ⟨v, e, hl, hc⟩
  · rw [checkKey_required_missing spec fields hl hr]
    simp [applyCustom, hcust]
  · rw [checkKey_check_error spec fields v e hl hc]
    simp [applyCustom, hcust]

theorem strCheck_violation (minLen maxLen : Option Nat)
    (pat : Option (List String)) (label : String) (v : JVal)
    (h : ∀ s, v = JVal.str s → s = "" ∨ optMinFail minLen s.length = true ∨
      optMaxFail maxLen s.length = true) :
    ∃ e, strCheck minLen maxLen pat label v = .error e := by
  cases v with
  | str s =>
    by_cases h0 : s = ""
    · exact ⟨_, by simp only [strCheck]; rw [if_pos h0]⟩
    · by_cases hmin : optMinFail minLen s.length = true
      · exact ⟨_, by simp only [strCheck]; rw [if_neg h0, if_pos hmin]⟩
      · by_cases hmax : optMaxFail maxLen s.length = true
        · exact ⟨_, by
            simp only [strCheck]
            rw [if_neg h0, if_neg hmin, if_pos hmax]⟩
        · rcases h s rfl with h' | h' | h' <;> simp_all
  | num n => exact ⟨_, rfl⟩
  | bool b => exact ⟨_, rfl⟩
  | arr xs => exact ⟨_, rfl⟩
  | obj f => exact ⟨_, rfl⟩

/-- C8 counterexample: a config missing `serviceName` does not always produce
the `"serviceName" is required` message — `abortEarly` validates the keys in
schema order, so a violation on the earlier `region` key masks it. -/
theorem c8_counterexample :
    lookupField [("region", JVal.num 42)] "serviceName" = none ∧
    Validate [("region", JVal.num 42)] = .error (genErr
      "child \"region\" fails because [\"region\" must be a string]") ∧
    strContains "child \"region\" fails because [\"region\" must be a string]"
      "\"serviceName\" is required" = false :=
  ⟨rfl, rfl, rfl⟩

/-- C8 (amended): provided every key validated before it passes, a config
missing `serviceName` fails with exactly the message
`"serviceName" is required`, and a config containing an endpoint whose
`function` object lacks `functionName` (with everything validated before that
field passing) fails with exactly
`"endpoints.function.functionName" is required`. -/
theorem c8_required_messages :
    (∀ (c : List (String × JVal)),
      (∃ r, checkKey regionSpec c = .ok r) →
      (∃ r, checkKey serviceIdSpec c = .ok r) →
      (∃ r, checkKey protocolSpec c = .ok r) →
      lookupField c "serviceName" = none →
      Validate c = .error ⟨true, "\"serviceName\" is required"⟩) ∧
    (∀ (c : List (String × JVal)) (pre rest : List JVal)
        (epf ff : List (String × JVal)),
      (∃ r, checkKey regionSpec c = .ok r) →
      (∃ r, checkKey serviceIdSpec c = .ok r) →
      (∃ r, checkKey protocolSpec c = .ok r) →
      (∃ r, checkKey serviceNameSpec c = .ok r) →
      (∃ r, checkKey gDescriptionSpec c = .ok r) →
      (∃ r, checkKey environmentSpec c = .ok r) →
      lookupField c "endpoints" =
        some (JVal.arr (pre ++ JVal.obj epf :: rest)) →
      (∀ (j : Nat) (h : j < pre.length),
        ∃ y, endpointItemCheck j (pre.get ⟨j, h⟩) = .ok y) →
      (∃ r, checkKey apiIdSpec epf = .ok r) →
      (∃ r, checkKey epDescriptionSpec epf = .ok r) →
      (∃ r, checkKey enableCORSSpec epf = .ok r) →
      (∃ r, checkKey pathSpec epf = .ok r) →
      (∃ r, checkKey methodSpec epf = .ok r) →
      lookupField epf "function" = some (JVal.obj ff) →
      (∃ r, checkKey isIntegratedResponseSpec ff = .ok r) →
      (∃ r, checkKey functionQualifierSpec ff = .ok r) →
      lookupField ff "functionName" = none →
      Validate c = .error
        ⟨true, "\"endpoints.function.functionName\" is required"⟩) := by
  constructor
  · intro c h1 h2 h3 hmiss
    have hc : checkKey serviceNameSpec c =
        .error ⟨true, "\"serviceName\" is required"⟩ :=
      checkKey_custom_error serviceNameSpec c _ rfl (Or.inl ⟨hmiss, rfl⟩)
    exact validateKeysAux_error_append serviceNameSpec
      [gDescriptionSpec, environmentSpec, endpointsSpec] c _ hc
      [regionSpec, serviceIdSpec, protocolSpec] c
      (by
        intro s hs
        simp only [List.mem_cons, List.not_mem_nil, or_false] at hs
        rcases hs with rfl | rfl | rfl
        · exact h1
        · exact h2
        · exact h3)
  · intro c pre rest epf ff h1 h2 h3 h4 h5 h6 hep hpre hk1 hk2 hk3 hk4 hk5
      hfn hff1 hff2 hmiss
    have step1 : checkKey functionNameSpec ff =
        .error ⟨true, "\"endpoints.function.functionName\" is required"⟩ :=
      checkKey_custom_error functionNameSpec ff _ rfl (Or.inl ⟨hmiss, rfl⟩)
    have step2 : validateKeysAux functionKeys ff ff =
        .error ⟨true, "\"endpoints.function.functionName\" is required"⟩ :=
      validateKeysAux_error_append functionNameSpec [] ff _ step1
        [isIntegratedResponseSpec, functionQualifierSpec] ff
        (by
          intro s hs
          simp only [List.mem_cons, List.not_mem_nil, or_false] at hs
          rcases hs with rfl | rfl
          · exact hff1
          · exact hff2)
    have step3 : objCheck functionKeys "function" (JVal.obj ff) =
        .error ⟨true, "\"endpoints.function.functionName\" is required"⟩ :=
      objCheck_error functionKeys "function" ff _ step2
    have step4 : checkKey functionSpec epf =
        .error ⟨true, "\"endpoints.function.functionName\" is required"⟩ :=
      checkKey_check_error functionSpec epf (JVal.obj ff) _ hfn step3
    have step5 : validateKeysAux endpointKeys epf epf =
        .error ⟨true, "\"endpoints.function.functionName\" is required"⟩ :=
      validateKeysAux_error_append functionSpec [usagePlanSpec, authSpec]
        epf _ step4
        [apiIdSpec, epDescriptionSpec, enableCORSSpec, pathSpec, methodSpec]
        epf
        (by
          intro s hs
          simp only [List.mem_cons, List.not_mem_nil, or_false] at hs
          rcases hs with rfl | rfl | rfl | rfl | rfl
          · exact hk1
          · exact hk2
          · exact hk3
          · exact hk4
          · exact hk5)
    have step6 : endpointItemCheck (0 + pre.length) (JVal.obj epf) =
        .error ⟨true, "\"endpoints.function.functionName\" is required"⟩ := by
      rw [Nat.zero_add]
      exact objCheck_error endpointKeys (toString pre.length) epf _ step5
    have step7 : validateItems "endpoints" endpointItemCheck 0
        (pre ++ JVal.obj epf :: rest) =
        .error ⟨true, "\"endpoints.function.functionName\" is required"⟩ :=
      validateItems_error_append "endpoints" endpointItemCheck
        (JVal.obj epf) rest _ rfl pre 0
        (by
          intro j hj
          obtain ⟨y, hy⟩ := hpre j hj
          exact ⟨y, by rw [Nat.zero_add]; exact hy⟩)
        step6
    have step8 : checkKey endpointsSpec c =
        .error ⟨true, "\"endpoints.function.functionName\" is required"⟩ :=
      checkKey_check_error endpointsSpec c
        (JVal.arr (pre ++ JVal.obj epf :: rest)) _ hep
        (arrCheck_items_error (some 100) endpointItemCheck "endpoints"
          (pre ++ JVal.obj epf :: rest) _ step7)
    exact validateKeysAux_error_append endpointsSpec [] c _ step8
      [regionSpec, serviceIdSpec, protocolSpec, serviceNameSpec,
        gDescriptionSpec, environmentSpec] c
      (by
        intro s hs
        simp only [List.mem_cons, List.not_mem_nil, or_false] at hs
        rcases hs with rfl | rfl | rfl | rfl | rfl | rfl
        · exact h1
        · exact h2
        · exact h3
        · exact h4
        · exact h5
        · exact h6)

/-- Witness for C8 (amended) at concrete configs. -/
theorem c8_required_messages_witness :
    Validate [] = .error ⟨true, "\"serviceName\" is required"⟩ ∧
    Validate [("serviceName", JVal.str "sv"),
      ("endpoints", JVal.arr [JVal.obj
        [("path", JVal.str "/p"), ("method", JVal.str "GET"),
         ("function", JVal.obj [])]])] =
      .error ⟨true, "\"endpoints.function.functionName\" is required"⟩ :=
  ⟨c8_required_messages.1 []
      ⟨some (JVal.str "ap-guangzhou"), rfl⟩ ⟨none, rfl⟩
      ⟨some (JVal.str "http"), rfl⟩ rfl,
   c8_required_messages.2
      [("serviceName", JVal.str "sv"),
       ("endpoints", JVal.arr [JVal.obj
         [("path", JVal.str "/p"), ("method", JVal.str "GET"),
          ("function", JVal.obj [])]])]
      [] []
      [("path", JVal.str "/p"), ("method", JVal.str "GET"),
       ("function", JVal.obj [])]
      []
      ⟨some (JVal.str "ap-guangzhou"), rfl⟩ ⟨none, rfl⟩
      ⟨some (JVal.str "http"), rfl⟩ ⟨some (JVal.str "sv"), rfl⟩
      ⟨none, rfl⟩ ⟨some (JVal.str "release"), rfl⟩ rfl
      (fun j hj => absurd hj (by simp))
      ⟨none, rfl⟩ ⟨none, rfl⟩ ⟨some (JVal.bool false), rfl⟩
      ⟨some (JVal.str "/p"), rfl⟩ ⟨some (JVal.str "GET"), rfl⟩ rfl
      ⟨some (JVal.bool false), rfl⟩ ⟨some (JVal.str "$LATEST"), rfl⟩ rfl⟩

/-- C10 counterexample: a present-but-invalid `serviceName` (1 character) does
not always yield the custom message — an earlier violation on `region` is
reported instead (`abortEarly` in schema key order). -/
theorem c10_counterexample :
    lookupField [("region", JVal.num 42), ("serviceName", JVal.str "a")]
      "serviceName" = some (JVal.str "a") ∧
    "a".length < 2 ∧
    Validate [("region", JVal.num 42), ("serviceName", JVal.str "a")] =
      .error (genErr
        "child \"region\" fails because [\"region\" must be a string]") ∧
    "child \"region\" fails because [\"region\" must be a string]" ≠
      "\"serviceName\" is required" :=
  ⟨rfl, by decide, rfl, by decide⟩

/-- C10 (amended): once the field is reached (everything validated before it
passes), `.error(new Error(...))` replaces *every* violation on that field —
wrong type, too short, too long, or empty — with the custom message, exactly:
for `serviceName` through the whole pipeline, and for
`usagePlan.usagePlanName` and `endpoints[].function.functionName` at their
component validators (whose custom errors propagate verbatim, as C8's theorem
shows). -/
theorem c10_custom_error_replaces_all :
    (∀ (c : List (String × JVal)) (v : JVal),
      (∃ r, checkKey regionSpec c = .ok r) →
      (∃ r, checkKey serviceIdSpec c = .ok r) →
      (∃ r, checkKey protocolSpec c = .ok r) →
      lookupField c "serviceName" = some v →
      (∀ s, v = JVal.str s → s = "" ∨ optMinFail (some 2) s.length = true ∨
        optMaxFail (some 50) s.length = true) →
      Validate c = .error ⟨true, "\"serviceName\" is required"⟩) ∧
    (∀ (up : List (String × JVal)) (lbl : String) (v : JVal),
      (∃ r, checkKey usagePlanIdSpec up = .ok r) →
      (∃ r, checkKey usagePlanDescSpec up = .ok r) →
      (∃ r, checkKey maxRequestNumSpec up = .ok r) →
      (∃ r, checkKey maxRequestNumPreSecSpec up = .ok r) →
      (lookupField up "usagePlanName" = none ∨
        (lookupField up "usagePlanName" = some v ∧
          ∀ s, v = JVal.str s → s = "" ∨
            optMinFail (some 2) s.length = true ∨
            optMaxFail (some 50) s.length = true)) →
      objCheck usagePlanKeys lbl (JVal.obj up) =
        .error ⟨true, "\"usagePlan.usagePlanName\" is required"⟩) ∧
    (∀ (ff : List (String × JVal)) (lbl : String) (v : JVal),
      (∃ r, checkKey isIntegratedResponseSpec ff = .ok r) →
      (∃ r, checkKey functionQualifierSpec ff = .ok r) →
      (lookupField ff "functionName" = none ∨
        (lookupField ff "functionName" = some v ∧
          ∀ s, v = JVal.str s → s = "")) →
      objCheck functionKeys lbl (JVal.obj ff) =
        .error ⟨true, "\"endpoints.function.functionName\" is required"⟩) := by
  refine ⟨?_, ?_, ?_⟩
  · intro c v h1 h2 h3 hl hviol
    obtain ⟨e, he⟩ :=
      strCheck_violation (some 2) (some 50) none "serviceName" v hviol
    have hc : checkKey serviceNameSpec c =
        .error ⟨true, "\"serviceName\" is required"⟩ :=
      checkKey_custom_error serviceNameSpec c _ rfl
        (Or.inr ⟨v, e, hl, he⟩)
    exact validateKeysAux_error_append serviceNameSpec
      [gDescriptionSpec, environmentSpec, endpointsSpec] c _ hc
      [regionSpec, serviceIdSpec, protocolSpec] c
      (by
        intro s hs
        simp only [List.mem_cons, List.not_mem_nil, or_false] at hs
        rcases hs with rfl | rfl | rfl
        · exact h1
        · exact h2
        · exact h3)
  · intro up lbl v h1 h2 h3 h4 hviol
    have hc : checkKey usagePlanNameSpec up =
        .error ⟨true, "\"usagePlan.usagePlanName\" is required"⟩ := by
      rcases hviol with hnone | ⟨hl, hbad⟩
      · exact checkKey_custom_error usagePlanNameSpec up _ rfl
          (Or.inl ⟨hnone, rfl⟩)
      · obtain ⟨e, he⟩ :=
          strCheck_violation (some 2) (some 50) none "usagePlanName" v hbad
        exact checkKey_custom_error usagePlanNameSpec up _ rfl
          (Or.inr ⟨v, e, hl, he⟩)
    refine objCheck_error usagePlanKeys lbl up _ ?_
    exact validateKeysAux_error_append usagePlanNameSpec [] up _ hc
      [usagePlanIdSpec, usagePlanDescSpec, maxRequestNumSpec,
        maxRequestNumPreSecSpec] up
      (by
        intro s hs
        simp only [List.mem_cons, List.not_mem_nil, or_false] at hs
        rcases hs with rfl | rfl | rfl | rfl
        · exact h1
        · exact h2
        · exact h3
        · exact h4)
  · intro ff lbl v h1 h2 hviol
    have hc : checkKey functionNameSpec ff =
        .error ⟨true, "\"endpoints.function.functionName\" is required"⟩ := by
      rcases hviol with hnone | ⟨hl, hbad⟩
      · exact checkKey_custom_error functionNameSpec ff _ rfl
          (Or.inl ⟨hnone, rfl⟩)
      · obtain ⟨e, he⟩ := strCheck_violation none none none "functionName" v
          (fun s hs => Or.inl (hbad s hs))
        exact checkKey_custom_error functionNameSpec ff _ rfl
          (Or.inr ⟨v, e, hl, he⟩)
    refine objCheck_error functionKeys lbl ff _ ?_
    exact validateKeysAux_error_append functionNameSpec [] ff _ hc
      [isIntegratedResponseSpec, functionQualifierSpec] ff
      (by
        intro s hs
        simp only [List.mem_cons, List.not_mem_nil, or_false] at hs
        rcases hs with rfl | rfl
        · exact h1
        · exact h2)

/-- Witness for C10 (amended) at concrete violating inputs. -/
theorem c10_custom_error_replaces_all_witness :
    Validate [("serviceName", JVal.str "a")] =
      .error ⟨true, "\"serviceName\" is required"⟩ ∧
    objCheck usagePlanKeys "usagePlan" (JVal.obj []) =
      .error ⟨true, "\"usagePlan.usagePlanName\" is required"⟩ ∧
    objCheck functionKeys "function" (JVal.obj
        [("functionName", JVal.num 3)]) =
      .error ⟨true, "\"endpoints.function.functionName\" is required"⟩ :=
  ⟨c10_custom_error_replaces_all.1 [("serviceName", JVal.str "a")]
      (JVal.str "a")
      ⟨some (JVal.str "ap-guangzhou"), rfl⟩ ⟨none, rfl⟩
      ⟨some (JVal.str "http"), rfl⟩ rfl
      (fun s hs => by
        injection hs with h
        subst h
        exact Or.inr (Or.inl (by decide))),
   c10_custom_error_replaces_all.2.1 [] "usagePlan" (JVal.num 0)
      ⟨none, rfl⟩ ⟨none, rfl⟩ ⟨some (JVal.num (-1)), rfl⟩
      ⟨some (JVal.num 1000), rfl⟩ (Or.inl rfl),
   c10_custom_error_replaces_all.2.2 [("functionName", JVal.num 3)]
      "function" (JVal.num 3)
      ⟨some (JVal.bool false), rfl⟩ ⟨some (JVal.str "$LATEST"), rfl⟩
      (Or.inr ⟨rfl, fun s hs => by cases hs⟩)⟩

theorem validateKeysAux_default_lookup (specs : List KeySpec) (spec : KeySpec)
    (fields : List (String × JVal)) (d : JVal) (hmem : spec ∈ specs)
    (hnd : (specs.map KeySpec.name).Nodup) (hr : spec.required = false)
    (hd : spec.dflt = some d) (hl : lookupField fields spec.name = none) :
    ∀ (acc out : List (String × JVal)),
      validateKeysAux specs fields acc = .ok out →
      lookupField out spec.name = some d :=
  fun acc out hok =>
    validateKeysAux_ok_lookup specs spec fields d hmem
      (checkKey_absent_default spec fields d hl hr hd) hnd acc out hok

/-- C6: on every successfully validated configuration, each omitted optional
field of the schema is populated with its documented default: `region`
`"ap-guangzhou"`, `protocol` `"http"`, `environment` `"release"` at the top
level; `enableCORS` `false` per endpoint; `isIntegratedResponse` `false` and
`functionQualifier` `"$LATEST"` in each `function`; `maxRequestNum` `-1` and
`maxRequestNumPreSec` `1000` in each present `usagePlan`; and
`auth.serviceTimeout` `15` in each present `auth` — with the validated
endpoints, functions, usage plans and auths linked to the input's
corresponding objects. -/
theorem c6_defaults :
    (∀ (c out : List (String × JVal)), Validate c = .ok out →
      (lookupField c "region" = none →
        lookupField out "region" = some (JVal.str "ap-guangzhou")) ∧
      (lookupField c "protocol" = none →
        lookupField out "protocol" = some (JVal.str "http")) ∧
      (lookupField c "environment" = none →
        lookupField out "environment" = some (JVal.str "release"))) ∧
    (∀ (c out : List (String × JVal)) (xs : List JVal),
      Validate c = .ok out →
      lookupField c "endpoints" = some (JVal.arr xs) →
      ∃ ys, lookupField out "endpoints" = some (JVal.arr ys) ∧
        validateItems "endpoints" endpointItemCheck 0 xs = .ok ys) ∧
    (∀ (xs ys : List JVal) (j : Nat) (h : j < xs.length),
      validateItems "endpoints" endpointItemCheck 0 xs = .ok ys →
      ∃ y, endpointItemCheck j (xs.get ⟨j, h⟩) = .ok y ∧
        ys.get? j = some y) ∧
    (∀ (f g : List (String × JVal)) (lbl : String),
      objCheck endpointKeys lbl (JVal.obj f) = .ok (JVal.obj g) →
      (lookupField f "enableCORS" = none →
        lookupField g "enableCORS" = some (JVal.bool false)) ∧
      (∀ ff, lookupField f "function" = some (JVal.obj ff) →
        ∃ gg, lookupField g "function" = some (JVal.obj gg) ∧
          validateKeysAux functionKeys ff ff = .ok gg) ∧
      (∀ up, lookupField f "usagePlan" = some (JVal.obj up) →
        ∃ gu, lookupField g "usagePlan" = some (JVal.obj gu) ∧
          validateKeysAux usagePlanKeys up up = .ok gu) ∧
      (∀ af, lookupField f "auth" = some (JVal.obj af) →
        ∃ ga, lookupField g "auth" = some (JVal.obj ga) ∧
          validateKeysAux authKeys af af = .ok ga)) ∧
    (∀ (ff gg : List (String × JVal)),
      validateKeysAux functionKeys ff ff = .ok gg →
      (lookupField ff "isIntegratedResponse" = none →
        lookupField gg "isIntegratedResponse" = some (JVal.bool false)) ∧
      (lookupField ff "functionQualifier" = none →
        lookupField gg "functionQualifier" = some (JVal.str "$LATEST"))) ∧
    (∀ (up gu : List (String × JVal)),
      validateKeysAux usagePlanKeys up up = .ok gu →
      (lookupField up "maxRequestNum" = none →
        lookupField gu "maxRequestNum" = some (JVal.num (-1))) ∧
      (lookupField up "maxRequestNumPreSec" = none →
        lookupField gu "maxRequestNumPreSec" = some (JVal.num 1000))) ∧
    (∀ (af ga : List (String × JVal)),
      validateKeysAux authKeys af af = .ok ga →
      lookupField af "serviceTimeout" = none →
      lookupField ga "serviceTimeout" = some (JVal.num 15)) := by
  refine ⟨?_, ?_, ?_, ?_, ?_, ?_, ?_⟩
  · intro c out hok
    refine ⟨?_, ?_, ?_⟩
    · intro hl
      exact validateKeysAux_default_lookup globalKeys regionSpec c _
        (by simp [globalKeys]) (by decide) rfl rfl hl c out hok
    · intro hl
      exact validateKeysAux_default_lookup globalKeys protocolSpec c _
        (by simp [globalKeys]) (by decide) rfl rfl hl c out hok
    · intro hl
      exact validateKeysAux_default_lookup globalKeys environmentSpec c _
        (by simp [globalKeys]) (by decide) rfl rfl hl c out hok
  · intro c out xs hok hl
    obtain ⟨r, hck⟩ := validateKeysAux_ok_mem globalKeys endpointsSpec c
      (by simp [globalKeys]) c out hok
    obtain ⟨v', hchk, hr⟩ :=
      checkKey_ok_present endpointsSpec c (JVal.arr xs) r hl hck
    obtain ⟨ys, hitems, hv'⟩ :=
      arrCheck_ok_items (some 100) endpointItemCheck "endpoints" xs v' hchk
    subst hv'
    subst hr
    refine ⟨ys, ?_, hitems⟩
    exact validateKeysAux_ok_lookup globalKeys endpointsSpec c
      (JVal.arr ys) (by simp [globalKeys]) hck (by decide) c out hok
  · intro xs ys j h hok
    obtain ⟨y, hy, hget⟩ :=
      validateItems_ok_pointwise "endpoints" endpointItemCheck xs 0 ys hok j h
    refine ⟨y, ?_, hget⟩
    rw [Nat.zero_add] at hy
    exact hy
  · intro f g lbl hok
    obtain ⟨g', hg', heq⟩ :=
      objCheck_ok_inv endpointKeys lbl f (JVal.obj g) hok
    injection heq with heq'
    subst heq'
    refine ⟨?_, ?_, ?_, ?_⟩
    · intro hl
      exact validateKeysAux_default_lookup endpointKeys enableCORSSpec f _
        (by simp [endpointKeys]) (by decide) rfl rfl hl f _ hg'
    · intro ff hl
      obtain ⟨r, hck⟩ := validateKeysAux_ok_mem endpointKeys functionSpec f
        (by simp [endpointKeys]) f _ hg'
      obtain ⟨v', hchk, hr⟩ :=
        checkKey_ok_present functionSpec f (JVal.obj ff) r hl hck
      obtain ⟨gg, hgg, hv'⟩ := objCheck_ok_inv functionKeys "function" ff
        v' hchk
      subst hv'
      subst hr
      refine ⟨gg, ?_, hgg⟩
      exact validateKeysAux_ok_lookup endpointKeys functionSpec f
        (JVal.obj gg) (by simp [endpointKeys]) hck (by decide) f _ hg'
    · intro up hl
      obtain ⟨r, hck⟩ := validateKeysAux_ok_mem endpointKeys usagePlanSpec f
        (by simp [endpointKeys]) f _ hg'
      obtain ⟨v', hchk, hr⟩ :=
        checkKey_ok_present usagePlanSpec f (JVal.obj up) r hl hck
      obtain ⟨gu, hgu, hv'⟩ := objCheck_ok_inv usagePlanKeys "usagePlan" up
        v' hchk
      subst hv'
      subst hr
      refine ⟨gu, ?_, hgu⟩
      exact validateKeysAux_ok_lookup endpointKeys usagePlanSpec f
        (JVal.obj gu) (by simp [endpointKeys]) hck (by decide) f _ hg'
    · intro af hl
      obtain ⟨r, hck⟩ := validateKeysAux_ok_mem endpointKeys authSpec f
        (by simp [endpointKeys]) f _ hg'
      obtain ⟨v', hchk, hr⟩ :=
        checkKey_ok_present authSpec f (JVal.obj af) r hl hck
      obtain ⟨ga, hga, hv'⟩ := objCheck_ok_inv authKeys "auth" af v' hchk
      subst hv'
      subst hr
      refine ⟨ga, ?_, hga⟩
      exact validateKeysAux_ok_lookup endpointKeys authSpec f
        (JVal.obj ga) (by simp [endpointKeys]) hck (by decide) f _ hg'
  · intro ff gg hok
    constructor
    · intro hl
      exact validateKeysAux_default_lookup functionKeys
        isIntegratedResponseSpec ff _ (by simp [functionKeys]) (by decide)
        rfl rfl hl ff gg hok
    · intro hl
      exact validateKeysAux_default_lookup functionKeys
        functionQualifierSpec ff _ (by simp [functionKeys]) (by decide)
        rfl rfl hl ff gg hok
  · intro up gu hok
    constructor
    · intro hl
      exact validateKeysAux_default_lookup usagePlanKeys maxRequestNumSpec
        up _ (by simp [usagePlanKeys]) (by decide) rfl rfl hl up gu hok
    · intro hl
      exact validateKeysAux_default_lookup usagePlanKeys
        maxRequestNumPreSecSpec up _ (by simp [usagePlanKeys]) (by decide)
        rfl rfl hl up gu hok
  · intro af ga hok hl
    exact validateKeysAux_default_lookup authKeys serviceTimeoutSpec af _
      (by simp [authKeys]) (by decide) rfl rfl hl af ga hok

/-- Witness for C6 on a concrete valid configuration exercising every
default. -/
theorem c6_defaults_witness :
    lookupField [("serviceName", JVal.str "myservice"),
      ("endpoints", JVal.arr [JVal.obj [("path", JVal.str "/hello"),
        ("method", JVal.str "GET"),
        ("function", JVal.obj [("functionName", JVal.str "fn"),
          ("isIntegratedResponse", JVal.bool false),
          ("functionQualifier", JVal.str "$LATEST")]),
        ("usagePlan", JVal.obj [("usagePlanName", JVal.str "plan"),
          ("maxRequestNum", JVal.num (-1)),
          ("maxRequestNumPreSec", JVal.num 1000)]),
        ("auth", JVal.obj [("secretName", JVal.str "sec"),
          ("serviceTimeout", JVal.num 15)]),
        ("enableCORS", JVal.bool false)]]),
      ("region", JVal.str "ap-guangzhou"), ("protocol", JVal.str "http"),
      ("environment", JVal.str "release")] "region" =
      some (JVal.str "ap-guangzhou") ∧
    lookupField [("path", JVal.str "/hello"), ("method", JVal.str "GET"),
      ("function", JVal.obj [("functionName", JVal.str "fn"),
        ("isIntegratedResponse", JVal.bool false),
        ("functionQualifier", JVal.str "$LATEST")]),
      ("usagePlan", JVal.obj [("usagePlanName", JVal.str "plan"),
        ("maxRequestNum", JVal.num (-1)),
        ("maxRequestNumPreSec", JVal.num 1000)]),
      ("auth", JVal.obj [("secretName", JVal.str "sec"),
        ("serviceTimeout", JVal.num 15)]),
      ("enableCORS", JVal.bool false)] "enableCORS" =
      some (JVal.bool false) ∧
    lookupField [("functionName", JVal.str "fn"),
      ("isIntegratedResponse", JVal.bool false),
      ("functionQualifier", JVal.str "$LATEST")] "functionQualifier" =
      some (JVal.str "$LATEST") ∧
    lookupField [("usagePlanName", JVal.str "plan"),
      ("maxRequestNum", JVal.num (-1)),
      ("maxRequestNumPreSec", JVal.num 1000)] "maxRequestNumPreSec" =
      some (JVal.num 1000) ∧
    lookupField [("secretName", JVal.str "sec"),
      ("serviceTimeout", JVal.num 15)] "serviceTimeout" =
      some (JVal.num 15) :=
  ⟨(c6_defaults.1 [("serviceName", JVal.str "myservice"),
      ("endpoints", JVal.arr [JVal.obj [("path", JVal.str "/hello"),
        ("method", JVal.str "GET"),
        ("function", JVal.obj [("functionName", JVal.str "fn")]),
        ("usagePlan", JVal.obj [("usagePlanName", JVal.str "plan")]),
        ("auth", JVal.obj [("secretName", JVal.str "sec")])]])] _ rfl).1 rfl,
   (c6_defaults.2.2.2.1 [("path", JVal.str "/hello"),
      ("method", JVal.str "GET"),
      ("function", JVal.obj [("functionName", JVal.str "fn")]),
      ("usagePlan", JVal.obj [("usagePlanName", JVal.str "plan")]),
      ("auth", JVal.obj [("secretName", JVal.str "sec")])] _ "0" rfl).1 rfl,
   (c6_defaults.2.2.2.2.1 [("functionName", JVal.str "fn")] _ rfl).2 rfl,
   (c6_defaults.2.2.2.2.2.1 [("usagePlanName", JVal.str "plan")] _ rfl).2
     rfl,
   c6_defaults.2.2.2.2.2.2 [("secretName", JVal.str "sec")] _ rfl rfl⟩
